import Mathlib

/-!
Verification of the custom-property / theming SCSS modules and the
character-counter foundation of material-components-web.

The embedding covers:
  - the custom property module (configure, is-custom-prop, create,
    create-varname, get-varname, get-fallback, set-fallback, create-var,
    get-declaration-value, get-declaration-fallback, declaration);
  - the theme validation module (_validate-theme-tokens, theme-styles);
  - MDCTextFieldCharacterCounterFoundation.setCounterValue.

Sass values are modelled by the inductive type Value; Sass maps by
association lists of string keys and values, mirroring Sass map semantics
(map.get, map.has-key, map.merge).
-/

namespace MDC

/-- A Sass value, as used by the custom property and validation modules:
null, booleans, numbers, strings, maps, and CSS var() function values
(the result of the interpolated `var($varname, $fallback)` expressions in
create-var). -/
inductive Value where
  | vnull
  | vbool (b : Bool)
  | vnum (n : Int)
  | vstr (s : String)
  | vmap (entries : List (String × Value))
  | vvar (varname : Value) (fallback : Option Value)
deriving Repr, Inhabited

/-- A Sass map with string keys, as an association list in insertion order. -/
abbrev SassMap := List (String × Value)

/-- Sass map.get: the value for a key, or null when the key is absent. -/
def mapGet : SassMap → String → Value
  | [], _ => .vnull
  | (k, v) :: rest, key => if k = key then v else mapGet rest key

/-- Sass map.has-key. -/
def mapHasKey (m : SassMap) (key : String) : Bool :=
  m.any (fun kv => kv.1 = key)

/-- Sass map.set: replace the value of an existing key in place, or append
a new key at the end. -/
def mapSet (m : SassMap) (key : String) (v : Value) : SassMap :=
  if mapHasKey m key then
    m.map (fun kv => if kv.1 = key then (key, v) else kv)
  else
    m ++ [(key, v)]

/-- Sass map.merge: keys of the second map override the first; new keys are
appended in order. -/
def mapMerge (m1 m2 : SassMap) : SassMap :=
  m2.foldl (fun acc kv => mapSet acc kv.1 kv.2) m1

/-- Sass truthiness: null and false are falsy, every other value is truthy. -/
def truthy : Value → Bool
  | .vnull => false
  | .vbool b => b
  | _ => true

/-- Whether a value is Sass null (the comparison `$value == null`). -/
def Value.isNull : Value → Bool
  | .vnull => true
  | _ => false

end MDC

namespace MDC.CharacterCounter

/-- The observable effect of one setCounterValue call: the string passed to
adapter.setContent and the numeric pair passed to adapter.setCounterValue. -/
structure CounterOutput where
  content : String
  counterCurrent : Int
  counterMax : Int
deriving Repr, DecidableEq

/-- MDCTextFieldCharacterCounterFoundation.setCounterValue: clamps
currentLength to maxLength, sets the content string, and forwards the
numeric pair to the adapter. -/
def setCounterValue (currentLength maxLength : Int) : CounterOutput :=
  let currentLength := min currentLength maxLength
  { content := toString currentLength ++ " / " ++ toString maxLength
    counterCurrent := currentLength
    counterMax := maxLength }

end MDC.CharacterCounter

example : (MDC.CharacterCounter.setCounterValue 5 3).content = "3 / 3" := by
  decide

example : (MDC.CharacterCounter.setCounterValue 2 10).content = "2 / 10" := by
  decide

namespace MDC.CustomProperties

/-- The initial value of the module-global configuration map $_config. -/
def defaultConfig : SassMap :=
  [("emit-custom-properties", .vbool true),
   ("emit-fallback-values", .vbool true),
   ("emit-fallback-vars", .vbool true)]

/-- Sass string.slice with 1-based inclusive indices, modelled on the
underlying character list. -/
def strSlice (s : String) (first last : Nat) : String :=
  String.mk ((s.data.drop (first - 1)).take (last - first + 1))

/-- Global name part for all custom properties ($_varname-... global in the
source, value mdc). -/
def varnamePfx : String := "mdc"

/-- create-varname: two dashes, the global name part, a dash, and the name. -/
def createVarname (name : String) : String :=
  "--" ++ varnamePfx ++ "-" ++ name

/-- The varname adjustment performed by create: when string.slice of the
first two characters is not two dashes, the name is wrapped by
create-varname. -/
def normalizeVarname (s : String) : String :=
  if strSlice s 1 2 ≠ "--" then createVarname s else s

/-- create: builds a custom property map with keys varname and fallback.
In Sass, string.slice raises an error when $varname is not a string; no
call in this development passes a non-string varname, and the model leaves
such a varname unchanged. -/
def create (varname : Value) (fallback : Value) : Value :=
  match varname with
  | .vstr s => .vmap [("varname", .vstr (normalizeVarname s)), ("fallback", fallback)]
  | v => .vmap [("varname", v), ("fallback", fallback)]

/-- is-custom-prop: true when the value is a map with a varname key. -/
def isCustomProp : Value → Bool
  | .vmap entries => mapHasKey entries "varname"
  | _ => false

/-- get-varname: map.get of the varname key. Sass map.get raises an error
on non-map input; the model returns null there (no call in this
development reaches that case). -/
def getVarname : Value → Value
  | .vmap entries => mapGet entries "varname"
  | _ => .vnull

theorem sizeOf_mapGet_lt (key : String) (entries : List (String × Value)) :
    sizeOf (mapGet entries key) < 1 + sizeOf entries := by
  induction entries with
  | nil => simp [mapGet]
  | cons kv rest ih =>
    obtain ⟨k, v⟩ := kv
    simp only [mapGet]
    split
    · simp only [List.cons.sizeOf_spec, Prod.mk.sizeOf_spec]
      omega
    · simp only [List.cons.sizeOf_spec, Prod.mk.sizeOf_spec]
      omega

/-- get-fallback: the fallback value of a custom property map; when the
fallback is itself a custom property map and $shallow is false, recurses
to the deep final fallback. Sass map.get raises an error on non-map input;
the model returns null there (no call in this development reaches that
case). -/
def getFallback (customProp : Value) (shallow : Bool) : Value :=
  match customProp with
  | .vmap entries =>
    let fallback := mapGet entries "fallback"
    if isCustomProp fallback && !shallow then
      getFallback fallback false
    else
      fallback
  | _ => .vnull
  termination_by sizeOf customProp
  decreasing_by
    simp only [Value.vmap.sizeOf_spec]
    exact sizeOf_mapGet_lt "fallback" entries

theorem getFallback_vmap_shallow (entries : List (String × Value)) :
    getFallback (.vmap entries) true = mapGet entries "fallback" := by
  rw [getFallback]
  simp

theorem sizeOf_getFallback_shallow_lt (p : Value)
    (h : isCustomProp (getFallback p true) = true) :
    sizeOf (getFallback p true) < sizeOf p := by
  cases p with
  | vmap entries =>
    rw [getFallback_vmap_shallow] at h ⊢
    simp only [Value.vmap.sizeOf_spec]
    exact sizeOf_mapGet_lt "fallback" entries
  | vnull => simp [getFallback, isCustomProp] at h
  | vbool b => simp [getFallback, isCustomProp] at h
  | vnum n => simp [getFallback, isCustomProp] at h
  | vstr s => simp [getFallback, isCustomProp] at h
  | vvar vn fb => simp [getFallback, isCustomProp] at h

/-- set-fallback: returns a copy of the custom property map with a new
fallback value; when the first fallback is itself a custom property map
and $shallow is false, the fallback is set deeply. -/
def setFallback (customProp newFallback : Value) (shallow : Bool) : Value :=
  let varname := getVarname customProp
  let firstFallback := getFallback customProp true
  if h : isCustomProp firstFallback && !shallow then
    create varname (setFallback firstFallback newFallback false)
  else
    create varname newFallback
  termination_by sizeOf customProp
  decreasing_by
    simp only [Bool.and_eq_true] at h
    exact sizeOf_getFallback_shallow_lt customProp h.1

/-- create-var: a CSS var() value for the custom property, or its fallback
value when emit-custom-properties is disabled. The configuration map is an
explicit argument (in the source it is the module-global $_config). -/
def createVar (config : SassMap) (customProp : Value) : Value :=
  if !truthy (mapGet config "emit-custom-properties") then
    getFallback customProp false
  else
    let varname := getVarname customProp
    let fallback := getFallback customProp true
    if h : isCustomProp fallback && truthy (mapGet config "emit-fallback-vars") then
      .vvar varname (some (createVar config fallback))
    else if truthy fallback && !isCustomProp fallback
        && truthy (mapGet config "emit-fallback-values") then
      .vvar varname (some fallback)
    else
      .vvar varname none
  termination_by sizeOf customProp
  decreasing_by
    simp only [Bool.and_eq_true] at h
    exact sizeOf_getFallback_shallow_lt customProp h.1

/-- get-declaration-value: returns create-var (just the fallback value when
emit-custom-properties is false). -/
def getDeclarationValue (config : SassMap) (customProp : Value) : Value :=
  createVar config customProp

/-- get-declaration-fallback: null when custom properties or fallback
values are disabled, the deep fallback value otherwise. -/
def getDeclarationFallback (config : SassMap) (customProp : Value) : Value :=
  if !truthy (mapGet config "emit-custom-properties")
      || !truthy (mapGet config "emit-fallback-values") then
    .vnull
  else
    getFallback customProp false

/-- The removal of keyword arguments whose value is null, performed by the
configure mixin before merging into $_config. -/
def removeNullArgs (kwargs : SassMap) : SassMap :=
  kwargs.filter (fun kv => !kv.2.isNull)

/-- The configure mixin as a transformer of the module-global $_config map:
given the keyword arguments, the semantics of the content block as a
function of the global map, and the current global map, it returns the
global map after the mixin ends. With no effective arguments the content
runs against the unchanged map; otherwise the merged map is installed for
the content and the previous map is restored afterwards. -/
def configure (kwargs : SassMap) (content : SassMap → SassMap)
    (global : SassMap) : SassMap :=
  let config := removeNullArgs kwargs
  if config.length = 0 then
    content global
  else
    let previous := global
    let merged := mapMerge global config
    let _afterContent := content merged
    previous

/-- Programs built from nested configure invocations: $_config is private
to the module, so these are the only operations available to a content
block that write it. -/
inductive ConfigProgram where
  | nop
  | seq (first second : ConfigProgram)
  | scope (kwargs : SassMap) (body : ConfigProgram)

/-- Runs a program of nested configure invocations against the global
configuration map. -/
def runConfig : ConfigProgram → SassMap → SassMap
  | .nop, g => g
  | .seq a b, g => runConfig b (runConfig a g)
  | .scope kwargs body, g => configure kwargs (runConfig body) g

/-- The effect of the declaration mixin: nothing (null $property), a raised
error, or an inclusion of css.declaration with the given property, value,
fallback value, gss map and important flag. Modelled from the spec:
css.declaration (module _css.scss is not under src/) emits a CSS
declaration with the given property, value and optional fallback; the
emit constructor records that inclusion. -/
inductive DeclResult where
  | skipped
  | emit (property : Value) (value : Value) (fallbackValue : Value)
      (gss : SassMap) (important : Bool)
  | declError (invalidCustomProp : Value)

/-- True exactly on the error result of the declaration mixin. -/
def DeclResult.isError : DeclResult → Bool
  | .declError _ => true
  | _ => false

/-- The declaration mixin. The @error branch carries the offending
$custom-prop value (the source interpolates it into the error message). -/
def declaration (config : SassMap) (property : Value) (customProp : Value)
    (gss : SassMap) (important : Bool) : DeclResult :=
  if truthy property then
    if isCustomProp property then
      if truthy (mapGet config "emit-custom-properties") then
        let customProp := property
        let property := getVarname customProp
        let value0 := getFallback customProp true
        let value := if isCustomProp value0 then createVar config value0 else value0
        .emit property value .vnull gss important
      else
        .emit property .vnull .vnull gss important
    else if !isCustomProp customProp then
      .declError customProp
    else
      .emit property (getDeclarationValue config customProp)
        (getDeclarationFallback config customProp) gss important
  else
    .skipped

end MDC.CustomProperties


namespace MDC.ThemeValidate

/-- Modelled from the spec: string-ext.has-suffix (module _string-ext.scss
is not under src/); per the spec, a token is exempt when its name ends
with the hard-coded suffix. -/
def hasSuffix (s sfx : String) : Bool :=
  sfx.data.isSuffixOf s.data

/-- The hard-coded suffix exemption list ($ignore-suffix). -/
def ignoreSuffix : List String := ["-type"]

/-- The loop of _validate-theme-tokens over $theme collecting tokens whose
list.index in $valid-tokens is null. -/
def unsupportedTokens (validTokens : List String) (theme : SassMap) :
    List String :=
  theme.foldl
    (fun acc kv => if validTokens.contains kv.1 then acc else acc ++ [kv.1])
    []

/-- The per-token missing test of the require-all loop: a token is missing
when its value in the theme is null, unless its name ends with one of the
ignored suffixes. -/
def isMissingToken (theme : SassMap) (token : String) : Bool :=
  let missing := (mapGet theme token).isNull
  if missing && ignoreSuffix.any (fun sfx => hasSuffix token sfx) then false
  else missing

/-- The loop of _validate-theme-tokens over $valid-tokens collecting
missing tokens (run only when $require-all). -/
def missingTokens (validTokens : List String) (theme : SassMap) :
    List String :=
  validTokens.foldl
    (fun acc token => if isMissingToken theme token then acc ++ [token] else acc)
    []

/-- Sass interpolation of a comma-separated list into a string. -/
def joinComma : List String → String
  | [] => ""
  | [x] => x
  | x :: xs => x ++ ", " ++ joinComma xs

/-- _validate-theme-tokens: computes the unsupported and (when require-all)
missing token lists, raises an error when either is nonempty, and returns
the theme unchanged otherwise. @error is modelled as Except.error carrying
the interpolated message. -/
def validateThemeTokens (validTokens : List String) (theme : SassMap)
    (requireAll : Bool) : Except String SassMap :=
  let unsupported := unsupportedTokens validTokens theme
  let missing := if requireAll then missingTokens validTokens theme else []
  if unsupported.length > 0 then
    .error ("The following tokens are invalid: " ++ joinComma unsupported ++ ".")
  else if missing.length > 0 then
    .error ("The following required tokens are missing: "
      ++ joinComma missing ++ ".")
  else
    .ok theme

/-- Sass map.keys. -/
def mapKeys (m : SassMap) : List String := m.map (fun kv => kv.1)

/-- theme-styles: validates the theme against the keys of the reference
theme and returns it. -/
def themeStyles (referenceTheme theme : SassMap) (requireAll : Bool) :
    Except String SassMap :=
  validateThemeTokens (mapKeys referenceTheme) theme requireAll

end MDC.ThemeValidate

namespace MDC.ThemeValidateLemmas

open MDC.ThemeValidate

theorem unsupportedTokens_aux (vt : List String) (theme : SassMap) :
    ∀ acc : List String,
      theme.foldl
        (fun acc kv => if vt.contains kv.1 then acc else acc ++ [kv.1]) acc
        = acc ++ (theme.filter (fun kv => !vt.contains kv.1)).map (fun kv => kv.1) := by
  induction theme with
  | nil => intro acc; simp
  | cons kv rest ih =>
    intro acc
    simp only [List.foldl_cons, List.filter_cons]
    cases hc : vt.contains kv.1
    · rw [if_neg (by decide), if_pos (by decide), List.map_cons, ih]
      simp
    · rw [if_pos rfl, if_neg (by decide)]
      exact ih acc

theorem unsupportedTokens_eq (vt : List String) (theme : SassMap) :
    unsupportedTokens vt theme
      = (theme.filter (fun kv => !vt.contains kv.1)).map (fun kv => kv.1) := by
  simpa [unsupportedTokens] using unsupportedTokens_aux vt theme []

theorem missingTokens_aux (vt : List String) (theme : SassMap) :
    ∀ acc : List String,
      vt.foldl
        (fun acc token => if isMissingToken theme token then acc ++ [token] else acc)
        acc
        = acc ++ vt.filter (isMissingToken theme) := by
  induction vt with
  | nil => intro acc; simp
  | cons t rest ih =>
    intro acc
    simp only [List.foldl_cons, List.filter_cons]
    cases hm : isMissingToken theme t
    · rw [if_neg (by decide), if_neg (by decide)]
      exact ih acc
    · rw [if_pos rfl, if_pos rfl, ih]
      simp

theorem missingTokens_eq (vt : List String) (theme : SassMap) :
    missingTokens vt theme = vt.filter (isMissingToken theme) := by
  simpa [missingTokens] using missingTokens_aux vt theme []

theorem unsupportedTokens_eq_nil (vt : List String) (theme : SassMap)
    (h : ∀ k ∈ mapKeys theme, vt.contains k = true) :
    unsupportedTokens vt theme = [] := by
  rw [unsupportedTokens_eq]
  rw [List.map_eq_nil_iff, List.filter_eq_nil_iff]
  intro kv hkv
  have := h kv.1 (List.mem_map_of_mem (fun kv => kv.1) hkv)
  simpa using this

theorem isMissingToken_false_of_not_null (theme : SassMap) (t : String)
    (h : (mapGet theme t).isNull = false) :
    isMissingToken theme t = false := by
  simp [isMissingToken, h]

theorem isMissingToken_true (theme : SassMap) (t : String)
    (hnull : (mapGet theme t).isNull = true)
    (hsfx : hasSuffix t "-type" = false) :
    isMissingToken theme t = true := by
  simp [isMissingToken, hnull, ignoreSuffix, hsfx]

theorem isMissingToken_false_of_suffix (theme : SassMap) (t : String)
    (hsfx : hasSuffix t "-type" = true) :
    isMissingToken theme t = false := by
  cases hnull : (mapGet theme t).isNull <;>
    simp [isMissingToken, hnull, ignoreSuffix, hsfx]

theorem missingTokens_eq_nil (vt : List String) (theme : SassMap)
    (h : ∀ t ∈ vt, (mapGet theme t).isNull = false) :
    missingTokens vt theme = [] := by
  rw [missingTokens_eq, List.filter_eq_nil_iff]
  intro t ht
  simp [isMissingToken_false_of_not_null theme t (h t ht)]

end MDC.ThemeValidateLemmas

namespace MDC.CustomProperties

/-- A fallback chain built by create: one custom property map per name in
the list, linked through the fallback key and terminating in the given
value. -/
def mkChain (names : List String) (terminal : Value) : Value :=
  match names with
  | [] => terminal
  | n :: ns => create (.vstr n) (mkChain ns terminal)

theorem createVarname_eq (name : String) :
    createVarname name = "--mdc-" ++ name := rfl

theorem strSlice_createVarname (name : String) :
    strSlice (createVarname name) 1 2 = "--" := by
  rw [createVarname_eq]
  simp only [strSlice, String.data_append]
  show String.mk (('-' :: '-' :: 'm' :: 'd' :: 'c' :: '-' :: name.data).take 2) = "--"
  rfl

theorem normalizeVarname_idem (s : String) :
    normalizeVarname (normalizeVarname s) = normalizeVarname s := by
  by_cases h : strSlice s 1 2 = "--"
  · simp [normalizeVarname, h]
  · simp only [normalizeVarname, h, if_pos, ne_eq, not_false_iff, if_true]
    simp [strSlice_createVarname]

theorem isCustomProp_create (vn fb : Value) :
    isCustomProp (create vn fb) = true := by
  cases vn <;> simp [create, isCustomProp, mapHasKey]

theorem getFallback_vmap_deep (entries : List (String × Value)) :
    getFallback (.vmap entries) false
      = if isCustomProp (mapGet entries "fallback") then
          getFallback (mapGet entries "fallback") false
        else mapGet entries "fallback" := by
  rw [getFallback]
  simp

theorem getFallback_create_shallow (vn fb : Value) :
    getFallback (create vn fb) true = fb := by
  cases vn <;> simp only [create] <;> rw [getFallback_vmap_shallow] <;> rfl

theorem getFallback_create_deep (vn fb : Value) :
    getFallback (create vn fb) false
      = if isCustomProp fb then getFallback fb false else fb := by
  cases vn <;> simp only [create] <;> rw [getFallback_vmap_deep] <;> rfl

theorem getVarname_create_vstr (s : String) (fb : Value) :
    getVarname (create (.vstr s) fb) = .vstr (normalizeVarname s) := rfl

theorem getFallback_mkChain_deep (names : List String) (n : String)
    (v : Value) (hv : isCustomProp v = false) :
    getFallback (mkChain (n :: names) v) false = v := by
  induction names generalizing n with
  | nil =>
    simp only [mkChain]
    rw [getFallback_create_deep]
    simp [hv]
  | cons m ms ih =>
    simp only [mkChain]
    rw [getFallback_create_deep]
    simp only [mkChain] at ih
    rw [if_pos (isCustomProp_create _ _)]
    exact ih m

theorem getFallback_mkChain_shallow (names : List String) (n : String)
    (v : Value) :
    getFallback (mkChain (n :: names) v) true = mkChain names v := by
  simp only [mkChain]
  exact getFallback_create_shallow _ _

theorem setFallback_eq (p nv : Value) (sh : Bool) :
    setFallback p nv sh
      = if isCustomProp (getFallback p true) && !sh then
          create (getVarname p) (setFallback (getFallback p true) nv false)
        else create (getVarname p) nv := by
  rw [setFallback]
  rw [dite_eq_ite]

theorem getVarname_mkChain (names : List String) (n : String) (v : Value) :
    getVarname (mkChain (n :: names) v) = .vstr (normalizeVarname n) := by
  simp only [mkChain]
  exact getVarname_create_vstr _ _

theorem setFallback_mkChain_deep (names : List String) (n : String)
    (t v : Value) (ht : isCustomProp t = false) :
    setFallback (mkChain (n :: names) t) v false = mkChain (n :: names) v := by
  induction names generalizing n with
  | nil =>
    rw [setFallback_eq, getFallback_mkChain_shallow]
    simp only [mkChain] at *
    rw [ht]
    simp only [Bool.false_and, if_neg (by simp : ¬(false = true))]
    rw [getVarname_create_vstr]
    simp [create, normalizeVarname_idem]
  | cons m ms ih =>
    rw [setFallback_eq, getFallback_mkChain_shallow]
    simp only [mkChain]
    rw [if_pos]
    · simp only [mkChain] at ih
      rw [ih m, getVarname_create_vstr]
      simp [create, normalizeVarname_idem]
    · simp [mkChain, isCustomProp_create]

theorem runConfig_preserves (p : ConfigProgram) : ∀ g : SassMap, runConfig p g = g := by
  induction p with
  | nop => intro g; rfl
  | seq a b iha ihb =>
    intro g
    simp only [runConfig]
    rw [iha, ihb]
  | scope kwargs body ih =>
    intro g
    simp only [runConfig, configure]
    split
    · exact ih g
    · rfl

end MDC.CustomProperties

open MDC MDC.CharacterCounter MDC.CustomProperties MDC.ThemeValidate
open MDC.ThemeValidateLemmas

/-- C1: for a custom property record whose fallback chain is a linked
sequence of records terminating in a non-record value, get-fallback with
the default non-shallow flag returns the terminal value, and with the
shallow flag set it returns the immediate first fallback of the record. -/
theorem getFallback_chain_resolution (n : String) (ns : List String)
    (v : Value) (hv : isCustomProp v = false) :
    getFallback (mkChain (n :: ns) v) false = v
    ∧ getFallback (mkChain (n :: ns) v) true = mkChain ns v :=
  ⟨getFallback_mkChain_deep ns n v hv, getFallback_mkChain_shallow ns n v⟩

theorem getFallback_chain_resolution_witness :
    isCustomProp (Value.vstr "teal") = false
    ∧ getFallback (mkChain ["a", "b"] (.vstr "teal")) false = .vstr "teal"
    ∧ getFallback (mkChain ["a", "b"] (.vstr "teal")) true
        = mkChain ["b"] (.vstr "teal") :=
  ⟨rfl, getFallback_chain_resolution "a" ["b"] (.vstr "teal") rfl⟩

/-- C2: when the emit-custom-properties switch is false, create-var (and
get-declaration-value) returns the deep fallback value of the custom
property record, which is null when the record has no fallback. -/
theorem createVar_disabled_returns_fallback (config : SassMap) (p : Value)
    (h : truthy (mapGet config "emit-custom-properties") = false) :
    createVar config p = getFallback p false
    ∧ getDeclarationValue config p = getFallback p false
    ∧ ∀ vn : String,
        getDeclarationValue config (create (.vstr vn) .vnull) = .vnull := by
  have key : ∀ q : Value, createVar config q = getFallback q false := by
    intro q
    rw [createVar, h]
    rfl
  refine ⟨key p, key p, fun vn => ?_⟩
  have := key (create (.vstr vn) .vnull)
  rw [getFallback_create_deep] at this
  simpa [isCustomProp, mapHasKey] using this

theorem createVar_disabled_returns_fallback_witness :
    truthy (mapGet [("emit-custom-properties", Value.vbool false)]
        "emit-custom-properties") = false
    ∧ createVar [("emit-custom-properties", Value.vbool false)]
          (create (.vstr "foo") (.vstr "teal"))
        = getFallback (create (.vstr "foo") (.vstr "teal")) false :=
  ⟨rfl,
   (createVar_disabled_returns_fallback
      [("emit-custom-properties", Value.vbool false)]
      (create (.vstr "foo") (.vstr "teal")) rfl).1⟩

/-- C7: for every invocation of the configure mixin, the global
configuration map after the mixin ends equals its value before the mixin
began, for every content block built from nested configure invocations
(the only writers of the module-private configuration map). -/
theorem configure_restores_global_config (kwargs : SassMap)
    (body : ConfigProgram) (global : SassMap) :
    configure kwargs (runConfig body) global = global :=
  runConfig_preserves (.scope kwargs body) global

/-- C8: invoked with a non-null CSS property string that is not itself a
custom property record, the declaration mixin raises an error exactly when
the supplied custom property argument is not a custom property record;
with a well-formed record it emits a declaration through css.declaration
with the declaration value and fallback value of the record. -/
theorem declaration_invalid_custom_prop_error (config : SassMap)
    (s : String) (customProp : Value) (gss : SassMap) (important : Bool) :
    ((declaration config (.vstr s) customProp gss important).isError = true
      ↔ isCustomProp customProp = false)
    ∧ (isCustomProp customProp = true →
        declaration config (.vstr s) customProp gss important
          = .emit (.vstr s) (getDeclarationValue config customProp)
              (getDeclarationFallback config customProp) gss important) := by
  have hs : truthy (Value.vstr s) = true := rfl
  have hs2 : isCustomProp (Value.vstr s) = false := rfl
  constructor
  · cases hcp : isCustomProp customProp <;>
      simp [declaration, hs, hs2, hcp, DeclResult.isError]
  · intro hcp
    simp [declaration, hs, hs2, hcp]

theorem declaration_invalid_custom_prop_error_witness :
    (declaration defaultConfig (.vstr "color") (.vnum 3) [] false).isError
        = true
    ∧ declaration defaultConfig (.vstr "color")
          (create (.vstr "foo") (.vstr "teal")) [] false
        = .emit (.vstr "color")
            (getDeclarationValue defaultConfig (create (.vstr "foo") (.vstr "teal")))
            (getDeclarationFallback defaultConfig (create (.vstr "foo") (.vstr "teal")))
            [] false :=
  ⟨(declaration_invalid_custom_prop_error defaultConfig "color" (.vnum 3)
      [] false).1.mpr rfl,
   (declaration_invalid_custom_prop_error defaultConfig "color"
      (create (.vstr "foo") (.vstr "teal")) [] false).2 rfl⟩

/-- C9: setCounterValue forwards the clamped pair to the adapter: the
numeric pair passed to adapter.setCounterValue is the minimum of current
and max together with max. -/
theorem setCounterValue_forwards_clamped_pair (currentLength maxLength : Int) :
    (setCounterValue currentLength maxLength).counterCurrent
        = min currentLength maxLength
    ∧ (setCounterValue currentLength maxLength).counterMax = maxLength :=
  ⟨rfl, rfl⟩

/-- C6: the string passed to adapter.setContent is the decimal rendering of
the minimum of current and max, the separator space-slash-space, and the
decimal rendering of max; when current exceeds max the displayed current
value equals max. -/
theorem setCounterValue_content_format (currentLength maxLength : Int) :
    (setCounterValue currentLength maxLength).content
      = toString (min currentLength maxLength) ++ " / " ++ toString maxLength
    ∧ (maxLength < currentLength →
        (setCounterValue currentLength maxLength).content
          = toString maxLength ++ " / " ++ toString maxLength) := by
  constructor
  · rfl
  · intro h
    show toString (min currentLength maxLength) ++ " / " ++ toString maxLength = _
    rw [min_eq_right (le_of_lt h)]

theorem setCounterValue_content_format_witness :
    (3 : Int) < 5
    ∧ (setCounterValue 5 3).content
        = toString (3 : Int) ++ " / " ++ toString (3 : Int) :=
  ⟨by decide, (setCounterValue_content_format 5 3).2 (by decide)⟩

/-- C10: for a well-formed custom property record (a fallback chain ending
in a non-record value) and a non-record new fallback, get-fallback after
set-fallback returns the new fallback, and set-fallback preserves the
variable name for either value of the shallow flag. -/
theorem setFallback_roundtrip (n : String) (ns : List String) (t v : Value)
    (sh : Bool) (ht : isCustomProp t = false) (hv : isCustomProp v = false) :
    getFallback (setFallback (mkChain (n :: ns) t) v false) false = v
    ∧ getVarname (setFallback (mkChain (n :: ns) t) v sh)
        = getVarname (mkChain (n :: ns) t) := by
  constructor
  · rw [setFallback_mkChain_deep ns n t v ht]
    exact getFallback_mkChain_deep ns n v hv
  · cases sh
    · rw [setFallback_mkChain_deep ns n t v ht, getVarname_mkChain,
        getVarname_mkChain]
    · rw [setFallback_eq]
      simp only [Bool.not_true, Bool.and_false]
      rw [if_neg (by decide), getVarname_mkChain, getVarname_create_vstr,
        normalizeVarname_idem]

theorem setFallback_roundtrip_witness :
    isCustomProp (Value.vstr "teal") = false
    ∧ getFallback (setFallback (mkChain ["a", "b"] (.vstr "teal"))
          (.vstr "red") false) false = .vstr "red"
    ∧ getVarname (setFallback (mkChain ["a", "b"] (.vstr "teal"))
          (.vstr "red") true)
        = getVarname (mkChain ["a", "b"] (.vstr "teal")) :=
  ⟨rfl,
   (setFallback_roundtrip "a" ["b"] (.vstr "teal") (.vstr "red") true
      rfl rfl).1,
   (setFallback_roundtrip "a" ["b"] (.vstr "teal") (.vstr "red") true
      rfl rfl).2⟩

/-- C3: when every key of the theme map is among the reference theme keys
and, if all tokens are required, every reference key has a non-null value
in the theme, theme-styles validation succeeds and returns the theme map
unchanged. -/
theorem themeStyles_valid_tokens_identity (referenceTheme theme : SassMap)
    (requireAll : Bool)
    (h1 : ∀ k ∈ mapKeys theme, (mapKeys referenceTheme).contains k = true)
    (h2 : requireAll = true →
        ∀ k ∈ mapKeys referenceTheme, (mapGet theme k).isNull = false) :
    themeStyles referenceTheme theme requireAll = Except.ok theme := by
  have hU := unsupportedTokens_eq_nil (mapKeys referenceTheme) theme h1
  have hM : (if requireAll then
      missingTokens (mapKeys referenceTheme) theme else []) = [] := by
    cases requireAll
    · rfl
    · exact if_pos rfl |>.trans (missingTokens_eq_nil _ _ (h2 rfl))
  simp [themeStyles, validateThemeTokens, hU, hM]

theorem themeStyles_valid_tokens_identity_witness :
    (∀ k ∈ mapKeys [("a", Value.vnum 7)],
        (mapKeys [("a", Value.vnum 0)]).contains k = true)
    ∧ themeStyles [("a", Value.vnum 0)] [("a", Value.vnum 7)] true
        = Except.ok [("a", Value.vnum 7)] :=
  ⟨by decide,
   themeStyles_valid_tokens_identity [("a", Value.vnum 0)]
     [("a", Value.vnum 7)] true (by decide) (by decide)⟩

/-- C4: a theme map containing a key not in the reference list fails
validation with an error whose message names exactly the unsupported keys
of the theme. -/
theorem validateThemeTokens_unsupported_error (validTokens : List String)
    (theme : SassMap) (requireAll : Bool) (k : String)
    (hk : k ∈ mapKeys theme) (hk2 : validTokens.contains k = false) :
    k ∈ (theme.filter (fun kv => !validTokens.contains kv.1)).map
        (fun kv => kv.1)
    ∧ validateThemeTokens validTokens theme requireAll
        = Except.error ("The following tokens are invalid: "
            ++ joinComma ((theme.filter
                  (fun kv => !validTokens.contains kv.1)).map (fun kv => kv.1))
            ++ ".") := by
  have hmem : k ∈ (theme.filter (fun kv => !validTokens.contains kv.1)).map
      (fun kv => kv.1) := by
    obtain ⟨kv, hkv, hfst⟩ := List.mem_map.mp hk
    refine List.mem_map.mpr ⟨kv, List.mem_filter.mpr ⟨hkv, ?_⟩, hfst⟩
    rw [hfst, hk2]
    rfl
  have hlen : 0 < (unsupportedTokens validTokens theme).length := by
    rw [unsupportedTokens_eq]
    exact List.length_pos.mpr (List.ne_nil_of_mem hmem)
  refine ⟨hmem, ?_⟩
  have herr : validateThemeTokens validTokens theme requireAll
      = Except.error ("The following tokens are invalid: "
          ++ joinComma (unsupportedTokens validTokens theme) ++ ".") := by
    simp only [validateThemeTokens]
    rw [if_pos hlen]
  rw [herr, unsupportedTokens_eq]

theorem validateThemeTokens_unsupported_error_witness :
    "b" ∈ mapKeys [("b", Value.vnum 1)]
    ∧ (["a"] : List String).contains "b" = false
    ∧ validateThemeTokens ["a"] [("b", Value.vnum 1)] true
        = Except.error "The following tokens are invalid: b." :=
  ⟨by decide, by decide,
   (validateThemeTokens_unsupported_error ["a"] [("b", Value.vnum 1)] true
      "b" (by decide) (by decide)).2.trans (by rfl)⟩

/-- C5 counterexample: with require-all true, the token a is valid, absent
from the theme and does not end in -type, yet the raised error is the
invalid-tokens error naming the unsupported key b; no error listing the
missing token is raised, contrary to the claim as stated. -/
theorem validateThemeTokens_missing_shadowed_counterexample :
    (mapGet [("b", Value.vnum 1)] "a").isNull = true
    ∧ hasSuffix "a" "-type" = false
    ∧ validateThemeTokens ["a"] [("b", Value.vnum 1)] true
        = Except.error "The following tokens are invalid: b."
    ∧ validateThemeTokens ["a"] [("b", Value.vnum 1)] true
        ≠ Except.error ("The following required tokens are missing: "
            ++ joinComma (missingTokens ["a"] [("b", Value.vnum 1)]) ++ ".") := by
  refine ⟨rfl, rfl, rfl, ?_⟩
  intro hcontra
  have h1 : validateThemeTokens ["a"] [("b", Value.vnum 1)] true
      = Except.error "The following tokens are invalid: b." := rfl
  rw [h1] at hcontra
  exact absurd (Except.error.inj hcontra) (by decide)

/-- C5 (amended): when require-all is true and the theme map contains no
unsupported keys, every valid token absent from (or null in) the theme map
and not ending in -type is reported in the raised error listing the
missing tokens; tokens ending in the hard-coded suffix -type are never
reported as missing. -/
theorem validateThemeTokens_missing_reported :
    (∀ (validTokens : List String) (theme : SassMap) (t : String),
        (∀ k ∈ mapKeys theme, validTokens.contains k = true) →
        t ∈ validTokens → (mapGet theme t).isNull = true →
        hasSuffix t "-type" = false →
        t ∈ missingTokens validTokens theme
        ∧ validateThemeTokens validTokens theme true
            = Except.error ("The following required tokens are missing: "
                ++ joinComma (missingTokens validTokens theme) ++ "."))
    ∧ (∀ (validTokens : List String) (theme : SassMap) (t : String),
        hasSuffix t "-type" = true → t ∉ missingTokens validTokens theme) := by
  constructor
  · intro vt theme t h1 ht hnull hsfx
    have hmiss : t ∈ missingTokens vt theme := by
      rw [missingTokens_eq]
      exact List.mem_filter.mpr ⟨ht, isMissingToken_true theme t hnull hsfx⟩
    refine ⟨hmiss, ?_⟩
    have hU := unsupportedTokens_eq_nil vt theme h1
    have hlen : 0 < (missingTokens vt theme).length :=
      List.length_pos.mpr (List.ne_nil_of_mem hmiss)
    simp [validateThemeTokens, hU, hlen]
  · intro vt theme t hsfx
    rw [missingTokens_eq]
    intro hmem
    have hflag := (List.mem_filter.mp hmem).2
    rw [isMissingToken_false_of_suffix theme t hsfx] at hflag
    exact absurd hflag (by decide)

theorem validateThemeTokens_missing_reported_witness :
    "c" ∈ missingTokens ["c"] []
    ∧ validateThemeTokens ["c"] [] true
        = Except.error ("The following required tokens are missing: "
            ++ joinComma (missingTokens ["c"] []) ++ ".")
    ∧ "x-type" ∉ missingTokens ["x-type"] [] :=
  ⟨(validateThemeTokens_missing_reported.1 ["c"] [] "c" (by decide)
      (by decide) rfl rfl).1,
   (validateThemeTokens_missing_reported.1 ["c"] [] "c" (by decide)
      (by decide) rfl rfl).2,
   validateThemeTokens_missing_reported.2 ["x-type"] [] "x-type" rfl⟩
